import Mathlib

/-!
# gpt-4o-image-go: rate gate, task pipeline, orchestration and downloader

A shallow embedding of `internal/utils/token_bucket.go`, `internal/client/client.go`
and `internal/client/download.go`.  Calls into the Go runtime and standard library
(clock, timers, HTTP transport, file system, JSON codec) are represented by the
values those calls returned; each function of the repository is a pure function of
its arguments and of those observed values.
-/

namespace Gpt4oImage

/-! ## Errors -/

/-- A Go `error` value.  `lib` is an error handed back by the runtime or the standard
library, `errorf` is `fmt.Errorf` without `%w`, `wrapf` is `fmt.Errorf` whose format
ends in `%w` (the text before the wrapped error is kept). -/
inductive GoError where
  | lib (msg : String)
  | errorf (msg : String)
  | wrapf (msg : String) (inner : GoError)
  deriving DecidableEq, Repr

/-- The text of `err.Error()`. -/
def GoError.Error : GoError → String
  | .lib msg => msg
  | .errorf msg => msg
  | .wrapf msg inner => msg ++ inner.Error

/-- The outcome of running a function that may panic instead of returning. -/
inductive Run (α : Type) where
  | returned (a : α)
  | panicked (reason : String)
  deriving DecidableEq, Repr

/-! ## internal/utils/token_bucket.go -/

/-- Largest `time.Duration` (an int64 count of nanoseconds). -/
def maxDuration : Int := 2 ^ 63 - 1

/-- Smallest `time.Duration`. -/
def minDuration : Int := -(2 ^ 63)

/-- Two's-complement int64 wrap-around, as performed by Go integer arithmetic. -/
def wrapInt64 (x : Int) : Int := (x + 2 ^ 63) % 2 ^ 64 - 2 ^ 63

/-- The method `t.Sub(u)` of package time, on instants given in nanoseconds: the difference,
saturated at the largest and smallest Duration. -/
def Sub (t u : Int) : Int :=
  if t - u > maxDuration then maxDuration
  else if t - u < minDuration then minDuration
  else t - u

/-- The struct `TokenBucket` (the mutex is held for the whole of `Wait`, so calls on
one bucket run one after the other). Instants are nanosecond clock readings. -/
structure TokenBucket where
  rateLimit : Int
  lastRequest : Int
  deriving DecidableEq, Repr

/-- The function `NewTokenBucket(rateLimit)`, with `now` the reading of `time.Now()`. -/
def NewTokenBucket (rateLimit now : Int) : TokenBucket :=
  { rateLimit := rateLimit, lastRequest := now }

/-- Which case of the `select` in `Wait` ran: the context was done (with `ctx.Err()`),
or the timer fired and `time.Now()` then read `now`. -/
inductive Select where
  | ctxDone (err : GoError)
  | timerFired (now : Int)
  deriving DecidableEq, Repr

/-- The duration handed to `time.After` by a call that reads `now` from the clock. -/
def TokenBucket.waitTime (tb : TokenBucket) (now : Int) : Int :=
  wrapInt64 (tb.rateLimit - Sub now tb.lastRequest)

/-- The method `(*TokenBucket).Wait`: `now` is the reading of `time.Now()` after the lock is
taken, `sel` the case of the `select` that ran (looked at only when the call waits).
Returns the bucket after the call and the returned error. -/
def TokenBucket.Wait (tb : TokenBucket) (now : Int) (sel : Select) :
    TokenBucket × Option GoError :=
  let elapsed := Sub now tb.lastRequest
  if elapsed < tb.rateLimit then
    match sel with
    | .ctxDone err => (tb, some err)
    | .timerFired now2 => ({ tb with lastRequest := now2 }, none)
  else
    ({ tb with lastRequest := now }, none)

/-- One call of `Wait` as seen from outside: the clock reading and the select case. -/
structure WaitCall where
  now : Int
  sel : Select
  deriving DecidableEq, Repr

/-- Runs a sequence of `Wait` calls on one bucket, in the order in which they held the
lock, and lists the grant time (`lastRequest` on return) of every successful call. -/
def runWaits (tb : TokenBucket) : List WaitCall → List Int
  | [] => []
  | c :: cs =>
    match tb.Wait c.now c.sel with
    | (tb2, none) => tb2.lastRequest :: runWaits tb2 cs
    | (tb2, some _) => runWaits tb2 cs

/-- The timer of a waiting call fires no earlier than the requested wait (nothing is
asked of a call that does not wait or whose wait is cancelled). -/
def timerOK (tb : TokenBucket) (c : WaitCall) : Bool :=
  if Sub c.now tb.lastRequest < tb.rateLimit then
    match c.sel with
    | .ctxDone _ => true
    | .timerFired now2 => decide (c.now + tb.waitTime c.now ≤ now2)
  else true

/-- Clock assumptions on a sequence of calls: every call reads a time no earlier than
the grant time stored in the bucket (monotone clock), and timers are not early. -/
def ClockOK (tb : TokenBucket) : List WaitCall → Bool
  | [] => true
  | c :: cs =>
    decide (tb.lastRequest ≤ c.now) && timerOK tb c && ClockOK (tb.Wait c.now c.sel).1 cs

/-! ## The image pattern `!\[.*?\]\((https?://[^\s]+)\)`

The pattern is compiled by `regexp.MustCompile` in `ProcessTask` and in `DownloadImages`.
Go's `regexp` returns, at the leftmost position where a match exists, the match a
backtracking search finds first: `.*?` tries the shortest extent first, `s?` and
`[^\s]+` try the longest first.  `FindAllStringSubmatch(text, -1)` resumes the search
at the end of each (non-empty) match.  The functions below follow that search for
this pattern, piece by piece, on the text as a list of characters. -/

/-- Membership in the class `\s`, which Go defines as `[\t\n\f\r ]`. -/
def isSpace (c : Char) : Bool :=
  c.toNat == 9 || c.toNat == 10 || c.toNat == 12 || c.toNat == 13 || c.toNat == 32

/-- Whether `.` matches the character: anything but a line feed. -/
def isDot (c : Char) : Bool := c.toNat != 10

/-- Matches a literal at the start of the text and returns what follows it. -/
def stripLit : List Char → List Char → Option (List Char)
  | [], s => some s
  | _ :: _, [] => none
  | p :: ps, c :: cs => if p = c then stripLit ps cs else none

/-- The piece `https?://`: returns the matched text and what follows.  The branch with
the `s` is tried first. -/
def matchScheme (s : List Char) : Option (List Char × List Char) :=
  match stripLit "http".toList s with
  | none => none
  | some r =>
    match (stripLit "s".toList r).bind (stripLit "://".toList) with
    | some r3 => some ("https://".toList, r3)
    | none =>
      match stripLit "://".toList r with
      | some r3 => some ("http://".toList, r3)
      | none => none

/-- Backtracking of `[^\s]+` before the final `\)`: with `k` characters of the class
available at the start of `s`, tries to end the class after `k`, `k - 1`, ..., `1`
characters and returns the first split at which `)` follows: the class text and the
text after the `)`. -/
def backtrackClass (s : List Char) : Nat → Option (List Char × List Char)
  | 0 => none
  | k + 1 =>
    match stripLit ")".toList (s.drop (k + 1)) with
    | some rest => some (s.take (k + 1), rest)
    | none => backtrackClass s k

/-- The piece `[^\s]+)` followed by `\)`. -/
def matchClass (s : List Char) : Option (List Char × List Char) :=
  backtrackClass s (s.takeWhile (fun c => !isSpace c)).length

/-- The pieces after `.*?`: `\]\(`, the group `(https?://[^\s]+)` and `\)`.  Returns the
text of the group and the text after the match. -/
def matchTail (s : List Char) : Option (List Char × List Char) :=
  match stripLit "](".toList s with
  | none => none
  | some r =>
    match matchScheme r with
    | none => none
    | some (scheme, r2) =>
      match matchClass r2 with
      | none => none
      | some (cls, rest) => some (scheme ++ cls, rest)

/-- The piece `.*?` followed by the rest of the pattern: the shortest extent is tried
first, and the extent grows by one character that `.` matches at a time. -/
def matchLazy : List Char → Option (List Char × List Char)
  | [] => matchTail []
  | c :: cs =>
    match matchTail (c :: cs) with
    | some r => some r
    | none => if isDot c then matchLazy cs else none

/-- A match of the whole pattern starting at the first character of the text: the
text of group 1 and the text after the match. -/
def matchHere (s : List Char) : Option (List Char × List Char) :=
  match stripLit "![".toList s with
  | none => none
  | some r => matchLazy r

/-- The search of `FindAllStringSubmatch`: `skip` characters still belong to the
previous match; otherwise a match is tried at the current position and the search
moves one character on when there is none.  Each match is the list `[match[0],
match[1]]`. -/
def findAllFrom : Nat → List Char → List (List String)
  | _, [] => []
  | skip + 1, _ :: cs => findAllFrom skip cs
  | 0, c :: cs =>
    match matchHere (c :: cs) with
    | some (g1, rest) =>
      let n := (c :: cs).length - rest.length
      [String.mk ((c :: cs).take n), String.mk g1] :: findAllFrom (n - 1) cs
    | none => findAllFrom 0 cs

/-- The call `re.FindAllStringSubmatch(content, -1)` for the image pattern. -/
def FindAllStringSubmatch (content : String) : List (List String) :=
  findAllFrom 0 content.toList

/-- The loop shared by `ProcessTask` and `DownloadImages`: appends `match[1]` of every
match that has more than one element to `urls`. -/
def appendMatches (urls : List String) : List (List String) → List String
  | [] => urls
  | m :: ms =>
    if m.length > 1 then appendMatches (urls ++ [m.getD 1 ""]) ms
    else appendMatches urls ms


/-! ## pkg/models/models.go -/

/-- The struct `Task`. -/
structure Task where
  Name : String
  Prompt : String
  Images : List String
  Model : String
  deriving DecidableEq, Repr

/-- The struct `TaskResult`; a nil slice is the empty list, a nil error is `none`. -/
structure TaskResult where
  TaskID : String
  TaskName : String
  Success : Bool
  Content : String
  ImageURLs : List String
  Error : Option GoError
  ImagePaths : List String
  deriving DecidableEq, Repr

/-- The struct `ImageURL`. -/
structure ImageURL where
  URL : String
  deriving DecidableEq, Repr

/-- The struct `ContentItem` (the field `Type` is spelled `Typ`). -/
structure ContentItem where
  Typ : String
  Text : String
  ImageURL : Option ImageURL
  deriving DecidableEq, Repr

/-- The struct `Message`. -/
structure Message where
  Role : String
  Content : List ContentItem
  deriving DecidableEq, Repr

/-- The struct `Choice`. -/
structure Choice where
  Index : Int
  Message : Message
  deriving DecidableEq, Repr

/-- The struct `APIError`. -/
structure APIError where
  Message : String
  Typ : String
  Code : String
  deriving DecidableEq, Repr

/-- The struct `APIResponse`. -/
structure APIResponse where
  ID : String
  Choices : List Choice
  Error : Option APIError
  deriving DecidableEq, Repr

/-- The struct `DownloadOptions`. -/
structure DownloadOptions where
  OutputDir : String
  Timeout : Int
  deriving DecidableEq, Repr

/-! ## internal/client/options.go and client.go -/

/-- The struct `Options`. -/
structure Options where
  APIKey : String
  APIURL : String
  RateLimit : Int
  MaxWorkers : Int
  deriving DecidableEq, Repr

/-- The struct `client`, with the bucket it points to. -/
structure Client where
  options : Options
  tokenBucket : TokenBucket
  deriving DecidableEq, Repr

/-- An outgoing HTTP request as `ProcessTask` builds it. -/
structure Request where
  Method : String
  URL : String
  Header : List (String × String)
  Body : String
  deriving DecidableEq, Repr

/-- What one execution of `ProcessTask` gets from the runtime and the libraries it
calls: clock readings, the case taken by the gate's `select`, and the results of the
path, file, base64, JSON and HTTP calls. -/
structure TaskWorld where
  /-- The reading of `time.Now()` inside `Wait`. -/
  waitNow : Int
  /-- The case of the `select` inside `Wait`. -/
  waitSel : Select
  /-- The value of `time.Now().UnixNano()` used for the task identifier. -/
  unixNano : Int
  IsAbs : String → Bool
  Join : List String → String
  Ext : String → String
  ReadFile : String → Except GoError (List Nat)
  EncodeToString : List Nat → String
  /-- The result of `json.Marshal` on the request body with this model and messages. -/
  Marshal : String → List Message → Except GoError String
  /-- The error of `http.NewRequestWithContext(ctx, method, url, nil)`. -/
  NewRequestWithContext : String → String → Option GoError
  /-- The call `httpClient.Do(req)`: the response body, or the error. -/
  Do : Request → Except GoError String
  /-- The call `json.NewDecoder(resp.Body).Decode(&apiResp)`. -/
  Decode : String → Except GoError APIResponse

/-- The method `prepareImageData`. -/
def prepareImageData (w : TaskWorld) (imagePath : String) : Except GoError String :=
  let fullPath := if !w.IsAbs imagePath then w.Join ["input", "images", imagePath] else imagePath
  match w.ReadFile fullPath with
  | .error err => .error (.wrapf "failed to read image file: " err)
  | .ok imgData =>
    let imgType := if w.Ext imagePath = ".jpg" || w.Ext imagePath = ".jpeg" then "jpeg" else "png"
    let encoded := w.EncodeToString imgData
    .ok ("data:image/" ++ imgType ++ ";base64," ++ encoded)

/-- The loop over `task.Images` in `ProcessTask`: extends `messageContent` by one
image item per path and stops at the first path that cannot be prepared. -/
def prepareImages (w : TaskWorld) (messageContent : List ContentItem) :
    List String → Except GoError (List ContentItem)
  | [] => .ok messageContent
  | imagePath :: rest =>
    match prepareImageData w imagePath with
    | .error err => .error err
    | .ok imageData =>
      prepareImages w
        (messageContent ++ [{ Typ := "image_url", Text := "", ImageURL := some ⟨imageData⟩ }]) rest

/-- What `ProcessTask` hands back: the bucket after the call, the returned pointer
(`none` is nil) and the returned error. -/
structure TaskReturn where
  bucket : TokenBucket
  result : Option TaskResult
  err : Option GoError
  deriving DecidableEq, Repr

/-- The part of `ProcessTask` after the reply has been decoded (from the test of
`apiResp.Error` to the end). -/
def processReply (tb : TokenBucket) (result : TaskResult) (apiResp : APIResponse) :
    Run TaskReturn :=
  match apiResp.Error with
  | some apiErr =>
    let e := GoError.errorf ("API error: " ++ apiErr.Message)
    .returned ⟨tb, some { result with Success := false, Error := some e }, some e⟩
  | none =>
    match apiResp.Choices with
    | [] => .returned ⟨tb, some { result with Success := true }, none⟩
    | choice :: _ =>
      match choice.Message.Content with
      | [] => .panicked "runtime error: index out of range [0] with length 0"
      | item :: _ =>
        let content := item.Text
        let urls := appendMatches result.ImageURLs (FindAllStringSubmatch content)
        .returned ⟨tb, some { result with Content := content, ImageURLs := urls,
                                          Success := true }, none⟩

/-- The method `ProcessTask`. -/
def ProcessTask (c : Client) (w : TaskWorld) (task : Task) : Run TaskReturn :=
  match c.tokenBucket.Wait w.waitNow w.waitSel with
  | (tb, some err) => .returned ⟨tb, none, some err⟩
  | (tb, none) =>
    let result : TaskResult :=
      { TaskID := toString w.unixNano, TaskName := task.Name, Success := false,
        Content := "", ImageURLs := [], Error := none, ImagePaths := [] }
    let failed (err : GoError) : Run TaskReturn :=
      .returned ⟨tb, some { result with Success := false, Error := some err }, some err⟩
    match prepareImages w [{ Typ := "text", Text := task.Prompt, ImageURL := none }] task.Images with
    | .error err => failed err
    | .ok messageContent =>
      match w.Marshal task.Model [{ Role := "user", Content := messageContent }] with
      | .error err => failed err
      | .ok jsonData =>
        match w.NewRequestWithContext "POST" c.options.APIURL with
        | some err => failed err
        | none =>
          let req : Request :=
            { Method := "POST", URL := c.options.APIURL,
              Header := [("Authorization", "Bearer " ++ c.options.APIKey),
                         ("Content-Type", "application/json")],
              Body := jsonData }
          match w.Do req with
          | .error err => failed err
          | .ok body =>
            match w.Decode body with
            | .error err => failed err
            | .ok apiResp => processReply tb result apiResp


/-- The goroutines of `ProcessTasks`, taken in the order `order` in which they finish:
each runs `ProcessTask` on its task and stores the returned pointer in its own slot.
`execs[i]` is what execution `i` sees: the client (with the bucket as it is when the
execution holds the lock) and its world.  A panic in a goroutine ends the program. -/
def runTasks (execs : List (Client × TaskWorld)) (tasks : List Task) :
    List Nat → List (Option TaskResult) → Run (List (Option TaskResult))
  | [], results => .returned results
  | idx :: rest, results =>
    match tasks[idx]?, execs[idx]? with
    | some t, some (c, w) =>
      match ProcessTask c w t with
      | .returned r => runTasks execs tasks rest (results.set idx r.result)
      | .panicked m => .panicked m
    | _, _ => runTasks execs tasks rest results

/-- The method `ProcessTasks`: `results` starts as `len(tasks)` nil pointers and is
returned after all goroutines have finished. -/
def ProcessTasks (execs : List (Client × TaskWorld)) (tasks : List Task) (order : List Nat) :
    Run (List (Option TaskResult)) :=
  runTasks execs tasks order (List.replicate tasks.length none)

/-- The body of a goroutine of `ProcessTaskAsync` and `ProcessTasksAsync` after
`ProcessTask` has returned: the value it sends on the channel.  `result.Error = err`
dereferences `result`. -/
def asyncSend (r : TaskReturn) : Run (Option TaskResult) :=
  match r.err with
  | some err =>
    match r.result with
    | none => .panicked "runtime error: invalid memory address or nil pointer dereference"
    | some result => .returned (some { result with Error := some err })
  | none => .returned r.result

/-- The method `ProcessTaskAsync`: the values a receiver gets from the returned
channel up to its close. -/
def ProcessTaskAsync (c : Client) (w : TaskWorld) (task : Task) :
    Run (List (Option TaskResult)) :=
  match ProcessTask c w task with
  | .returned r =>
    match asyncSend r with
    | .returned v => .returned [v]
    | .panicked m => .panicked m
  | .panicked m => .panicked m

/-- The goroutines of `ProcessTasksAsync` in the order in which they finish; `sent` is
what the channel has received so far (its capacity is `len(tasks)`, so no send blocks). -/
def runTasksAsync (execs : List (Client × TaskWorld)) (tasks : List Task) :
    List Nat → List (Option TaskResult) → Run (List (Option TaskResult))
  | [], sent => .returned sent
  | idx :: rest, sent =>
    match tasks[idx]?, execs[idx]? with
    | some t, some (c, w) =>
      match ProcessTask c w t with
      | .returned r =>
        match asyncSend r with
        | .returned v => runTasksAsync execs tasks rest (sent ++ [v])
        | .panicked m => .panicked m
      | .panicked m => .panicked m
    | _, _ => runTasksAsync execs tasks rest sent

/-- The method `ProcessTasksAsync`: the values a receiver gets from the returned
channel up to its close. -/
def ProcessTasksAsync (execs : List (Client × TaskWorld)) (tasks : List Task)
    (order : List Nat) : Run (List (Option TaskResult)) :=
  runTasksAsync execs tasks order []

/-! ## internal/client/download.go -/

/-- What one download goroutine gets from the libraries it calls. -/
structure FetchWorld where
  /-- The error of `http.NewRequestWithContext(ctx, "GET", url, nil)`. -/
  newRequestErr : Option GoError
  /-- The call `httpClient.Do(req)`: the status code of the response, or the error. -/
  doResult : Except GoError Int
  /-- The error of `os.Create(filePath)`. -/
  createErr : Option GoError
  /-- The error of `io.Copy(file, resp.Body)`. -/
  copyErr : Option GoError
  deriving Repr

/-- What one call of `DownloadImages` gets from outside: directory creation, path
joining, and the world of the goroutine started for each index. -/
structure DownloadWorld where
  MkdirAll : String → Option GoError
  Join : String → String → String
  fetch : Nat → FetchWorld

/-- The constant `http.StatusOK`. -/
def StatusOK : Int := 200

/-- The path a download goroutine writes to. -/
def downloadPath (join : String → String → String) (outputDir taskID : String) (idx : Nat) :
    String :=
  join outputDir (taskID ++ "-" ++ toString idx ++ ".png")

/-- The body of one download goroutine: the path of the written file, or the failure
it appends to `downloadErrors`. -/
def downloadOne (w : DownloadWorld) (outputDir taskID : String) (idx : Nat) :
    Except GoError String :=
  let filePath := downloadPath w.Join outputDir taskID idx
  match (w.fetch idx).newRequestErr with
  | some err => .error (.wrapf "创建请求失败: " err)
  | none =>
    match (w.fetch idx).doResult with
    | .error err => .error (.wrapf "下载图片失败: " err)
    | .ok statusCode =>
      if statusCode ≠ StatusOK then
        .error (.errorf ("下载图片失败，状态码: " ++ toString statusCode))
      else
        match (w.fetch idx).createErr with
        | some err => .error (.wrapf "创建文件失败: " err)
        | none =>
          match (w.fetch idx).copyErr with
          | some err => .error (.wrapf "写入文件失败: " err)
          | none => .ok filePath

/-- The two accumulators guarded by `mutex`, after the goroutines listed in `order`
have finished in that order. -/
def collect (w : DownloadWorld) (outputDir taskID : String) :
    List Nat → List String × List GoError → List String × List GoError
  | [], acc => acc
  | idx :: rest, (imagePaths, downloadErrors) =>
    match downloadOne w outputDir taskID idx with
    | .ok filePath => collect w outputDir taskID rest (imagePaths ++ [filePath], downloadErrors)
    | .error err => collect w outputDir taskID rest (imagePaths, downloadErrors ++ [err])

/-- Lines 24 to 29 of download.go: the options used when the argument is nil. -/
def optionsOrDefault (options : Option DownloadOptions) : DownloadOptions :=
  match options with
  | none => { OutputDir := "output", Timeout := 60 }
  | some o => o

/-- Lines 32 to 35: the directory that is created and written to. -/
def outputDirOf (options : DownloadOptions) : String :=
  if options.OutputDir = "" then "output" else options.OutputDir

/-- The constant `time.Second`, in nanoseconds. -/
def Second : Int := 1000000000

/-- Lines 60 to 62: the `Timeout` of the HTTP client, in nanoseconds
(`time.Duration(options.Timeout) * time.Second`, an int64 product). -/
def clientTimeout (options : DownloadOptions) : Int :=
  wrapInt64 (wrapInt64 options.Timeout * Second)

/-- Lines 41 to 53: the URLs to download. -/
def imagesToDownload (result : TaskResult) : List String :=
  if result.ImageURLs.length = 0 && result.Content ≠ "" then
    appendMatches result.ImageURLs (FindAllStringSubmatch result.Content)
  else result.ImageURLs

/-- What a call of `DownloadImages` did: the result struct after the call, the
returned error, the directory passed to `MkdirAll` (if reached), the timeout given to
the HTTP client (if built) and the goroutines started, as (index, URL). -/
structure DownloadRun where
  result : Option TaskResult
  err : Option GoError
  madeDir : Option String
  timeout : Option Int
  started : List (Nat × String)
  deriving Repr

/-- The function `DownloadImages`; `order` is the order in which the started
goroutines finish. -/
def DownloadImages (w : DownloadWorld) (result : Option TaskResult)
    (options : Option DownloadOptions) (order : List Nat) : DownloadRun :=
  match result with
  | none => ⟨result, some (.errorf "无法下载图片：任务未成功完成"), none, none, []⟩
  | some res =>
    if !res.Success then
      ⟨result, some (.errorf "无法下载图片：任务未成功完成"), none, none, []⟩
    else
      let options := optionsOrDefault options
      let outputDir := outputDirOf options
      match w.MkdirAll outputDir with
      | some err => ⟨result, some (.wrapf "创建输出目录失败: " err), some outputDir, none, []⟩
      | none =>
        let urls := imagesToDownload res
        if urls.length = 0 then
          ⟨result, some (.errorf "未找到可下载的图片URL"), some outputDir, none, []⟩
        else
          let started := urls.enum
          let (imagePaths, downloadErrors) := collect w outputDir res.TaskID order ([], [])
          let res2 := { res with ImagePaths := imagePaths }
          match downloadErrors with
          | first :: _ =>
            ⟨some res2,
             some (.wrapf ("下载过程中发生 " ++ toString downloadErrors.length ++
                           " 个错误，第一个错误: ") first),
             some outputDir, some (clientTimeout options), started⟩
          | [] => ⟨some res2, none, some outputDir, some (clientTimeout options), started⟩


/-! ## Concrete inputs used by the closed statements below -/

/-- A client with the test suite's settings: rate limit 100 ms, bucket created at
time 0. -/
def testClient : Client :=
  { options := { APIKey := "test-api-key", APIURL := "https://api.tu-zi.com/v1/chat/completions",
                 RateLimit := 100000000, MaxWorkers := 5 },
    tokenBucket := NewTokenBucket 100000000 0 }

/-- The task of `TestClient_ProcessTask`. -/
def testTask : Task :=
  { Name := "test-task", Prompt := "test prompt", Images := ["test.jpg"],
    Model := "gpt-4o-image-vip" }

/-- A world in which every library call succeeds, the gate is reached 200 ms after the
bucket was created, and the endpoint replies with `reply`. -/
def worldReplying (reply : APIResponse) : TaskWorld :=
  { waitNow := 200000000, waitSel := .timerFired 200000000, unixNano := 1700000000000000000,
    IsAbs := fun _ => false, Join := fun parts => String.intercalate "/" parts,
    Ext := fun _ => ".jpg", ReadFile := fun _ => .ok [255, 216], EncodeToString := fun _ => "/9g=",
    Marshal := fun _ _ => .ok "{}", NewRequestWithContext := fun _ _ => none,
    Do := fun _ => .ok "{}", Decode := fun _ => .ok reply }

/-- A world in which the call reaches the gate 50 ms after the last grant and the
context is cancelled while it waits. -/
def worldCancelledAtGate : TaskWorld :=
  { worldReplying { ID := "", Choices := [], Error := none } with
    waitNow := 50000000, waitSel := .ctxDone (.lib "context canceled") }

/-- A decoded reply with one choice whose message has no content item, as decoded from
`{"choices":[{"index":0,"message":{"role":"assistant"}}]}`. -/
def replyWithoutContent : APIResponse :=
  { ID := "", Choices := [{ Index := 0, Message := { Role := "assistant", Content := [] } }],
    Error := none }

/-- A successful result with one extracted URL. -/
def resultOneURL : TaskResult :=
  { TaskID := "1700000000000000000", TaskName := "t1", Success := true,
    Content := "![x](https://host/1.png)", ImageURLs := ["https://host/1.png"],
    Error := none, ImagePaths := [] }

/-- A successful result without URLs and without content. -/
def resultNoURL : TaskResult :=
  { TaskID := "1700000000000000000", TaskName := "t1", Success := true,
    Content := "", ImageURLs := [], Error := none, ImagePaths := [] }

/-- A download world in which directories can be created and every fetch is answered
with the given status code; files can be created and written. -/
def worldStatus (status : Int) : DownloadWorld :=
  { MkdirAll := fun _ => none, Join := fun dir name => dir ++ "/" ++ name,
    fetch := fun _ => { newRequestErr := none, doResult := .ok status,
                        createErr := none, copyErr := none } }

/-- A download world in which the output directory cannot be created. -/
def worldNoDir : DownloadWorld :=
  { worldStatus 200 with MkdirAll := fun _ => some (.lib "mkdir output: permission denied") }


/-- Whether the goroutine for index `i` records a path. -/
def fetchSucceeds (w : DownloadWorld) (outputDir taskID : String) (i : Nat) : Bool :=
  match downloadOne w outputDir taskID i with
  | .ok _ => true
  | .error _ => false

/-- The failure the goroutine for index `i` records, if any. -/
def fetchFailure (w : DownloadWorld) (outputDir taskID : String) (i : Nat) : Option GoError :=
  match downloadOne w outputDir taskID i with
  | .ok _ => none
  | .error err => some err

/-- The indices below `n` whose fetch succeeds, in increasing order. -/
def succeeded (w : DownloadWorld) (outputDir taskID : String) (n : Nat) : List Nat :=
  (List.range n).filter (fetchSucceeds w outputDir taskID)

/-- The number of indices below `n` whose fetch fails. -/
def failedCount (w : DownloadWorld) (outputDir taskID : String) (n : Nat) : Nat :=
  ((List.range n).filter (fun i => !fetchSucceeds w outputDir taskID i)).length


/-- A download world in which index 0 is answered with 200 and every other index with
404: one good and one permanently failing URL when there are two. -/
def worldFirstOnly : DownloadWorld :=
  { MkdirAll := fun _ => none, Join := fun dir name => dir ++ "/" ++ name,
    fetch := fun i => { newRequestErr := none, doResult := .ok (if i = 0 then 200 else 404),
                        createErr := none, copyErr := none } }

/-- A successful result with two extracted URLs. -/
def resultTwoURLs : TaskResult :=
  { TaskID := "17", TaskName := "t1", Success := true,
    Content := "![x](https://host/1.png) ![y](https://host/2.png)",
    ImageURLs := ["https://host/1.png", "https://host/2.png"],
    Error := none, ImagePaths := [] }


/-- The pointer that `ProcessTask` returns for `tasks[i]` in execution `i` (nil when
the execution does not return). -/
def slotOf (execs : List (Client × TaskWorld)) (tasks : List Task) (i : Nat) :
    Option TaskResult :=
  match tasks[i]?, execs[i]? with
  | some t, some (c, w) =>
    match ProcessTask c w t with
    | .returned r => r.result
    | .panicked _ => none
  | _, _ => none

/-- Whether execution `i` of `ProcessTask` completes, that is returns. -/
def completes (execs : List (Client × TaskWorld)) (tasks : List Task) (i : Nat) : Bool :=
  match tasks[i]?, execs[i]? with
  | some t, some (c, w) =>
    match ProcessTask c w t with
    | .returned _ => true
    | .panicked _ => false
  | _, _ => false

/-- The second task of `TestClient_ProcessTasksAsync`. -/
def testTask2 : Task :=
  { Name := "test-task-2", Prompt := "test prompt 2", Images := ["test2.jpg"],
    Model := "gpt-4o-image-vip" }

/-- A reply with one image link. -/
def replyOneImage : APIResponse :=
  { ID := "r1",
    Choices := [{ Index := 0,
                  Message := { Role := "assistant",
                               Content := [{ Typ := "text", Text := "![x](https://host/1.png)",
                                             ImageURL := none }] } }],
    Error := none }


/-! ## Texts made of markdown image links

The shape of text that the claim about URL extraction speaks of: image links
`![alt](http://...)` or `![alt](https://...)` with other text around them. -/

/-- A markdown image link `![alt](scheme://rest)`, scheme `https` if `secure`, else
`http`. -/
structure ImageLink where
  alt : List Char
  secure : Bool
  rest : List Char
  deriving DecidableEq, Repr

/-- The parenthesized URL of the link. -/
def ImageLink.url (l : ImageLink) : List Char :=
  (if l.secure then "https://".toList else "http://".toList) ++ l.rest

/-- The text of the link. -/
def ImageLink.text (l : ImageLink) : List Char :=
  "![".toList ++ (l.alt ++ ("](".toList ++ (l.url ++ ")".toList)))

/-- The alt text has no `]` and no line feed; the URL has at least one character after
`://` and no whitespace. -/
def ImageLink.wellFormed (l : ImageLink) : Bool :=
  l.alt.all (fun c => c.toNat != 93 && isDot c) && !l.rest.isEmpty &&
    l.rest.all (fun c => !isSpace c)

/-- Text without any `!`. -/
def plain (s : List Char) : Bool := s.all (fun c => c.toNat != 33)

/-- The text is empty or starts with a whitespace character. -/
def endOrSpace : List Char → Bool
  | [] => true
  | c :: _ => isSpace c

/-- The text made of the links, each followed by its separator. -/
def linksText : List (ImageLink × List Char) → List Char
  | [] => []
  | (l, sep) :: items => l.text ++ (sep ++ linksText items)

/-- Every link is well formed, every separator is plain, and every link is followed by
whitespace or by the end of the text. -/
def separated : List (ImageLink × List Char) → Bool
  | [] => true
  | (l, sep) :: items =>
    l.wellFormed && plain sep && endOrSpace (sep ++ linksText items) && separated items


/-- The value the goroutine of `ProcessTasksAsync` for `tasks[i]` sends on the channel
(`none` when the goroutine panics before sending). -/
def sentOf (execs : List (Client × TaskWorld)) (tasks : List Task) (i : Nat) :
    Option (Option TaskResult) :=
  match tasks[i]?, execs[i]? with
  | some t, some (c, w) =>
    match ProcessTask c w t with
    | .returned r =>
      match asyncSend r with
      | .returned v => some v
      | .panicked _ => none
    | .panicked _ => none
  | _, _ => none


/-! ## Theorems -/

theorem wait_rateLimit (tb : TokenBucket) (now : Int) (sel : Select) :
    (tb.Wait now sel).1.rateLimit = tb.rateLimit := by
  unfold TokenBucket.Wait
  simp only
  split
  · cases sel <;> rfl
  · rfl

/-- A cancelled call leaves the bucket as it was. -/
theorem wait_cancelled_state (tb : TokenBucket) (now : Int) (sel : Select) (e : GoError)
    (h : (tb.Wait now sel).2 = some e) : (tb.Wait now sel).1 = tb := by
  unfold TokenBucket.Wait at h ⊢
  by_cases h1 : Sub now tb.lastRequest < tb.rateLimit
  · cases sel <;> simp_all
  · simp_all

theorem sub_of_le (t u : Int) (h : u ≤ t) :
    Sub t u = if t - u > maxDuration then maxDuration else t - u := by
  unfold Sub maxDuration minDuration
  split_ifs <;> omega

/-- A successful call records a grant time at least `rateLimit` after the previous one. -/
theorem wait_grant_gap (tb : TokenBucket) (c : WaitCall) (hR : tb.rateLimit ≤ maxDuration)
    (hmono : tb.lastRequest ≤ c.now) (htimer : timerOK tb c = true)
    (h : (tb.Wait c.now c.sel).2 = none) :
    tb.lastRequest + tb.rateLimit ≤ (tb.Wait c.now c.sel).1.lastRequest := by
  obtain ⟨now, sel⟩ := c
  change tb.lastRequest ≤ now at hmono
  have hs := sub_of_le now tb.lastRequest hmono
  simp only [TokenBucket.Wait] at h ⊢
  simp only [timerOK, TokenBucket.waitTime, wrapInt64] at htimer
  by_cases hw : Sub now tb.lastRequest < tb.rateLimit
  · simp only [hw, if_true] at h htimer ⊢
    cases sel with
    | ctxDone err => simp at h
    | timerFired t =>
      simp only [decide_eq_true_eq] at htimer
      simp only []
      unfold maxDuration at *
      split_ifs at hs <;> omega
  · simp only [hw, if_false]
    unfold maxDuration at *
    split_ifs at hs <;> omega

/-- Along any sequence of calls, the grant times form a chain starting from the grant
time stored in the bucket, each link at least `rateLimit` long. -/
theorem runWaits_chain (cs : List WaitCall) :
    ∀ tb : TokenBucket, tb.rateLimit ≤ maxDuration → ClockOK tb cs = true →
      List.Chain (fun g1 g2 => g1 + tb.rateLimit ≤ g2) tb.lastRequest (runWaits tb cs) := by
  induction cs with
  | nil => intro tb _ _; exact List.Chain.nil
  | cons c cs ih =>
    intro tb hR hok
    simp only [ClockOK, Bool.and_eq_true, decide_eq_true_eq] at hok
    obtain ⟨⟨hmono, htimer⟩, hrest⟩ := hok
    have hrl := wait_rateLimit tb c.now c.sel
    have ih2 := ih (tb.Wait c.now c.sel).1 (by rw [hrl]; exact hR) hrest
    rw [hrl] at ih2
    unfold runWaits
    rcases hw : tb.Wait c.now c.sel with ⟨tb2, _ | e⟩
    · have hgap := wait_grant_gap tb c hR hmono htimer (by rw [hw])
      rw [hw] at ih2 hgap
      exact List.Chain.cons hgap ih2
    · have hst := wait_cancelled_state tb c.now c.sel e (by rw [hw])
      rw [hw] at ih2 hst
      simp only at hst
      subst hst
      exact ih2

/-- C1: on one gate whose interval is a Duration, with a monotone clock and timers
that fire no earlier than requested, the grant times recorded by any two successive
successful `Wait` calls (cancelled calls may lie between them) are at least
`rateLimit` apart. -/
theorem c1_successive_grants_gap (tb : TokenBucket) (cs : List WaitCall)
    (hR : tb.rateLimit ≤ maxDuration) (hclock : ClockOK tb cs = true) :
    List.Chain' (fun g1 g2 => g1 + tb.rateLimit ≤ g2) (runWaits tb cs) :=
  List.Chain'.tail (l := tb.lastRequest :: runWaits tb cs) (runWaits_chain cs tb hR hclock)

theorem c1_successive_grants_gap_witness :
    (NewTokenBucket 100 0).rateLimit ≤ maxDuration ∧
    ClockOK (NewTokenBucket 100 0)
      [⟨30, .timerFired 100⟩, ⟨120, .ctxDone (.lib "context canceled")⟩,
       ⟨250, .ctxDone (.lib "context canceled")⟩] = true ∧
    runWaits (NewTokenBucket 100 0)
      [⟨30, .timerFired 100⟩, ⟨120, .ctxDone (.lib "context canceled")⟩,
       ⟨250, .ctxDone (.lib "context canceled")⟩] = [100, 250] ∧
    List.Chain' (fun g1 g2 => g1 + (NewTokenBucket 100 0).rateLimit ≤ g2)
      (runWaits (NewTokenBucket 100 0)
        [⟨30, .timerFired 100⟩, ⟨120, .ctxDone (.lib "context canceled")⟩,
         ⟨250, .ctxDone (.lib "context canceled")⟩]) :=
  ⟨by decide, by decide, by decide,
   c1_successive_grants_gap _ _ (by decide) (by decide)⟩

/-! ### ProcessTask -/

/-- C2: when the context is cancelled while `ProcessTask` waits at the rate gate, the
call returns the failure together with a nil `TaskResult`: the failure is not captured
in any result. -/
theorem c2_gate_cancel_returns_nil_result :
    ProcessTask testClient worldCancelledAtGate testTask =
      .returned ⟨testClient.tokenBucket, none, some (.lib "context canceled")⟩ := by
  decide

/-- Every failure `ProcessTask` returns after the gate has granted is captured in the
returned result: the result is not nil, `Success` is false and `Error` is the returned
error. -/
theorem processTask_failure_after_gate (c : Client) (w : TaskWorld) (task : Task)
    (r : TaskReturn) (e : GoError)
    (hgate : (c.tokenBucket.Wait w.waitNow w.waitSel).2 = none)
    (hret : ProcessTask c w task = .returned r) (herr : r.err = some e) :
    ∃ res, r.result = some res ∧ res.Success = false ∧ res.Error = some e := by
  unfold ProcessTask at hret
  rcases hw : c.tokenBucket.Wait w.waitNow w.waitSel with ⟨tb, _ | e0⟩
  · rw [hw] at hret
    simp only at hret
    split at hret
    · cases hret; cases herr; exact ⟨_, rfl, rfl, rfl⟩
    · split at hret
      · cases hret; cases herr; exact ⟨_, rfl, rfl, rfl⟩
      · split at hret
        · cases hret; cases herr; exact ⟨_, rfl, rfl, rfl⟩
        · split at hret
          · cases hret; cases herr; exact ⟨_, rfl, rfl, rfl⟩
          · split at hret
            · cases hret; cases herr; exact ⟨_, rfl, rfl, rfl⟩
            · unfold processReply at hret
              split at hret
              · cases hret; cases herr; exact ⟨_, rfl, rfl, rfl⟩
              · split at hret
                · cases hret; cases herr
                · split at hret
                  · cases hret
                  · cases hret; cases herr
  · rw [hw] at hgate; cases hgate

/-- C7: a reply that decodes without error, carries no error object and has a first
choice whose message has no content item makes `ProcessTask` panic on
`Content[0]`; it returns neither a result nor a failure. -/
theorem c7_empty_content_panics :
    ProcessTask testClient (worldReplying replyWithoutContent) testTask =
      .panicked "runtime error: index out of range [0] with length 0" := by
  decide

/-- When the reply has no error object and its first choice has a content item, or it
has no choice at all, `ProcessTask` returns a successful result echoing the task name;
the content is the first item's text (empty when there is no choice). -/
theorem processReply_success (tb : TokenBucket) (result : TaskResult) (apiResp : APIResponse)
    (herr : apiResp.Error = none)
    (hcontent : ∀ ch ∈ apiResp.Choices.head?, ch.Message.Content ≠ []) :
    ∃ res, processReply tb result apiResp = .returned ⟨tb, some res, none⟩ ∧
      res.Success = true ∧ res.TaskName = result.TaskName ∧
      res.Content =
        match apiResp.Choices.head? with
        | some ch => ((ch.Message.Content.head?).map (·.Text)).getD ""
        | none => result.Content := by
  unfold processReply
  rw [herr]
  rcases hc : apiResp.Choices with _ | ⟨ch, rest⟩
  · exact ⟨_, rfl, rfl, rfl, rfl⟩
  · have hne := hcontent ch (by rw [hc]; rfl)
    rcases hm : ch.Message.Content with _ | ⟨item, items⟩
    · exact absurd hm hne
    · simp only [hm]
      exact ⟨_, rfl, rfl, rfl, by simp [hm]⟩

/-! ### Orchestration -/

/-- C3: with one task whose context is cancelled while it waits at the rate gate, the
goroutine of `ProcessTasksAsync` dereferences the nil result and panics: the channel
delivers no outcome. -/
theorem c3_async_panics_on_gate_cancel :
    ProcessTasksAsync [(testClient, worldCancelledAtGate)] [testTask] [0] =
      .panicked "runtime error: invalid memory address or nil pointer dereference" := by
  decide


/-! ### DownloadImages: one fetch -/

/-- C8 as stated fails: a fetch answered with status 204, which lies in 200-299, is
recorded as a failure and no path is recorded. -/
theorem c8_status_204_rejected :
    (200 ≤ (204 : Int) ∧ (204 : Int) ≤ 299) ∧
    downloadOne (worldStatus 204) "output" "1700000000000000000" 0 =
      .error (.errorf "下载图片失败，状态码: 204") :=
  ⟨by decide, by rfl⟩

/-- C8 amended: a fetch whose request was built and answered with `status` is rejected
for its status exactly when the status is not 200; a 200 answer is accepted and the
path of the URL's file recorded when the file can be created and written. -/
theorem c8_rejected_iff_not_200 (w : DownloadWorld) (outputDir taskID : String) (idx : Nat)
    (status : Int) (hreq : (w.fetch idx).newRequestErr = none)
    (hdo : (w.fetch idx).doResult = .ok status) :
    (downloadOne w outputDir taskID idx =
        .error (.errorf ("下载图片失败，状态码: " ++ toString status)) ↔ status ≠ StatusOK) ∧
    (status = StatusOK → (w.fetch idx).createErr = none → (w.fetch idx).copyErr = none →
      downloadOne w outputDir taskID idx = .ok (downloadPath w.Join outputDir taskID idx)) := by
  unfold downloadOne
  simp only [hreq, hdo]
  by_cases hs : status = StatusOK
  · simp only [hs, ne_eq, not_true_eq_false, if_false, iff_false, true_implies]
    constructor
    · cases (w.fetch idx).createErr <;> cases (w.fetch idx).copyErr <;> simp
    · intro h1 h2
      simp [h1, h2]
  · simp [hs]

theorem c8_rejected_iff_not_200_witness :
    (downloadOne (worldStatus 200) "output" "17" 3 =
        .error (.errorf ("下载图片失败，状态码: " ++ toString (200 : Int))) ↔
      (200 : Int) ≠ StatusOK) ∧
    ((200 : Int) = StatusOK → ((worldStatus 200).fetch 3).createErr = none →
      ((worldStatus 200).fetch 3).copyErr = none →
      downloadOne (worldStatus 200) "output" "17" 3 =
        .ok (downloadPath (worldStatus 200).Join "output" "17" 3)) :=
  c8_rejected_iff_not_200 (worldStatus 200) "output" "17" 3 200 rfl rfl

/-! ### DownloadImages: options -/

/-- C9: with non-nil options whose `Timeout` is zero, the HTTP client is built with
timeout 0 (which `net/http` treats as no timeout), not 60 seconds; the directory of
the same options does fall back to "output". -/
theorem c9_zero_timeout_not_defaulted :
    (DownloadImages (worldStatus 200) (some resultOneURL)
        (some { OutputDir := "", Timeout := 0 }) [0]).timeout = some 0 ∧
    (DownloadImages (worldStatus 200) (some resultOneURL)
        (some { OutputDir := "", Timeout := 0 }) [0]).madeDir = some "output" ∧
    (DownloadImages (worldStatus 200) (some resultOneURL) none [0]).timeout =
      some (60 * Second) := by
  decide

/-- For nil options and for options with an empty directory the directory used is
"output"; for nil options the client timeout is 60 seconds. -/
theorem options_defaults (o : DownloadOptions) :
    outputDirOf (optionsOrDefault none) = "output" ∧
    clientTimeout (optionsOrDefault none) = 60 * Second ∧
    (o.OutputDir = "" → outputDirOf (optionsOrDefault (some o)) = "output") := by
  refine ⟨by decide, by decide, ?_⟩
  intro h
  simp [optionsOrDefault, outputDirOf, h]


/-! ### DownloadImages: no URL -/

theorem imagesToDownload_none (res : TaskResult) (hurls : res.ImageURLs = [])
    (hnomatch : FindAllStringSubmatch res.Content = []) : imagesToDownload res = [] := by
  unfold imagesToDownload
  rw [hurls, hnomatch]
  split <;> rfl

/-- C10 as stated fails: when the output directory cannot be created, a successful
result without any URL makes `DownloadImages` fail with the directory error, not with
the no-URL error. -/
theorem c10_directory_error_comes_first :
    resultNoURL.Success = true ∧ resultNoURL.ImageURLs = [] ∧
    FindAllStringSubmatch resultNoURL.Content = [] ∧
    (DownloadImages worldNoDir (some resultNoURL) none []).err =
      some (.wrapf "创建输出目录失败: " (.lib "mkdir output: permission denied")) ∧
    (DownloadImages worldNoDir (some resultNoURL) none []).err ≠
      some (.errorf "未找到可下载的图片URL") := by
  decide

/-- C10 amended: for a successful result whose `ImageURLs` is empty and whose content
has no match of the image pattern, `DownloadImages` fails, starts no fetch and leaves
the result unchanged; the failure is the directory error when the output directory
cannot be created and the no-URL error otherwise. -/
theorem c10_no_url_fails_unchanged (w : DownloadWorld) (res : TaskResult)
    (options : Option DownloadOptions) (order : List Nat)
    (hsucc : res.Success = true) (hurls : res.ImageURLs = [])
    (hnomatch : FindAllStringSubmatch res.Content = []) :
    (DownloadImages w (some res) options order).result = some res ∧
    (DownloadImages w (some res) options order).started = [] ∧
    (DownloadImages w (some res) options order).err =
      some (match w.MkdirAll (outputDirOf (optionsOrDefault options)) with
            | some err => .wrapf "创建输出目录失败: " err
            | none => .errorf "未找到可下载的图片URL") := by
  have h0 := imagesToDownload_none res hurls hnomatch
  unfold DownloadImages
  simp only [hsucc, Bool.not_true, Bool.false_eq_true, if_false]
  cases hm : w.MkdirAll (outputDirOf (optionsOrDefault options)) with
  | some err => exact ⟨rfl, rfl, rfl⟩
  | none =>
    simp [h0]

theorem c10_no_url_fails_unchanged_witness :
    (DownloadImages (worldStatus 200) (some resultNoURL) none [0, 1]).result = some resultNoURL ∧
    (DownloadImages (worldStatus 200) (some resultNoURL) none [0, 1]).started = [] ∧
    (DownloadImages (worldStatus 200) (some resultNoURL) none [0, 1]).err =
      some (match (worldStatus 200).MkdirAll (outputDirOf (optionsOrDefault none)) with
            | some err => .wrapf "创建输出目录失败: " err
            | none => .errorf "未找到可下载的图片URL") :=
  c10_no_url_fails_unchanged (worldStatus 200) resultNoURL none [0, 1]
    (by decide) (by decide) (by decide)


/-! ### DownloadImages: aggregation -/

theorem downloadOne_ok_path (w : DownloadWorld) (outputDir taskID : String) (i : Nat)
    (p : String) (h : downloadOne w outputDir taskID i = .ok p) :
    p = downloadPath w.Join outputDir taskID i := by
  unfold downloadOne at h
  simp only at h
  repeat' split at h
  all_goals first | (cases h; rfl) | cases h

theorem collect_eq (w : DownloadWorld) (outputDir taskID : String) (order : List Nat) :
    ∀ acc : List String × List GoError,
      collect w outputDir taskID order acc =
        (acc.1 ++ (order.filter (fetchSucceeds w outputDir taskID)).map
            (downloadPath w.Join outputDir taskID),
         acc.2 ++ order.filterMap (fetchFailure w outputDir taskID)) := by
  induction order with
  | nil => intro acc; simp [collect]
  | cons i rest ih =>
    intro acc
    obtain ⟨ps, es⟩ := acc
    unfold collect
    cases hd : downloadOne w outputDir taskID i with
    | ok p =>
      have hp := downloadOne_ok_path w outputDir taskID i p hd
      simp only [ih]
      simp [fetchSucceeds, fetchFailure, hd, hp]
    | error err =>
      simp only [ih]
      simp [fetchSucceeds, fetchFailure, hd]

theorem filterMap_failure_length (w : DownloadWorld) (outputDir taskID : String)
    (l : List Nat) :
    (l.filterMap (fetchFailure w outputDir taskID)).length =
      (l.filter (fun i => !fetchSucceeds w outputDir taskID i)).length := by
  induction l with
  | nil => rfl
  | cons i rest ih =>
    cases hd : downloadOne w outputDir taskID i <;>
      simp [List.filterMap_cons, List.filter_cons, fetchSucceeds, fetchFailure, hd, ih]

theorem succeeded_add_failed (w : DownloadWorld) (outputDir taskID : String) (n : Nat) :
    (succeeded w outputDir taskID n).length + failedCount w outputDir taskID n = n := by
  unfold succeeded failedCount
  have h := List.length_eq_length_filter_add (l := List.range n)
    (fetchSucceeds w outputDir taskID)
  simp only [List.length_range] at h
  omega


/-- C6 as stated fails for n = 0: a successful result without any discoverable URL has
no failing fetch (f = 0), yet `DownloadImages` returns an error. -/
theorem c6_error_without_failed_fetch :
    resultNoURL.Success = true ∧ (imagesToDownload resultNoURL).length = 0 ∧
    failedCount (worldStatus 200) "output" resultNoURL.TaskID 0 = 0 ∧
    (DownloadImages (worldStatus 200) (some resultNoURL) none []).err =
      some (.errorf "未找到可下载的图片URL") := by
  decide

/-- C6 amended: for a successful result with n ≥ 1 discovered URLs, once the output
directory exists, and whatever the order in which the n fetches finish: `ImagePaths`
becomes a rearrangement of the paths of the indices whose fetch succeeded (so it has
s = n - f entries and a failure on one URL removes no other path), and the call returns
an error exactly when f > 0, the error then being the aggregate whose text reports f. -/
theorem c6_paths_and_failure_count (w : DownloadWorld) (res : TaskResult)
    (options : Option DownloadOptions) (order : List Nat)
    (hsucc : res.Success = true)
    (hdir : w.MkdirAll (outputDirOf (optionsOrDefault options)) = none)
    (hn : 0 < (imagesToDownload res).length)
    (hperm : order.Perm (List.range (imagesToDownload res).length)) :
    ∃ paths,
      (DownloadImages w (some res) options order).result =
        some { res with ImagePaths := paths } ∧
      paths.Perm ((succeeded w (outputDirOf (optionsOrDefault options)) res.TaskID
          (imagesToDownload res).length).map
        (downloadPath w.Join (outputDirOf (optionsOrDefault options)) res.TaskID)) ∧
      paths.length + failedCount w (outputDirOf (optionsOrDefault options)) res.TaskID
          (imagesToDownload res).length = (imagesToDownload res).length ∧
      ((DownloadImages w (some res) options order).err = none ↔
        failedCount w (outputDirOf (optionsOrDefault options)) res.TaskID
          (imagesToDownload res).length = 0) ∧
      (0 < failedCount w (outputDirOf (optionsOrDefault options)) res.TaskID
          (imagesToDownload res).length →
        ∃ first, (DownloadImages w (some res) options order).err =
          some (.wrapf ("下载过程中发生 " ++
            toString (failedCount w (outputDirOf (optionsOrDefault options)) res.TaskID
              (imagesToDownload res).length) ++ " 个错误，第一个错误: ") first)) := by
  have hpaths : ((order.filter (fetchSucceeds w (outputDirOf (optionsOrDefault options))
        res.TaskID)).map (downloadPath w.Join (outputDirOf (optionsOrDefault options))
        res.TaskID)).Perm
      ((succeeded w (outputDirOf (optionsOrDefault options)) res.TaskID
          (imagesToDownload res).length).map
        (downloadPath w.Join (outputDirOf (optionsOrDefault options)) res.TaskID)) :=
    List.Perm.map _ (List.Perm.filter _ hperm)
  have hfail : (order.filterMap (fetchFailure w (outputDirOf (optionsOrDefault options))
        res.TaskID)).length =
      failedCount w (outputDirOf (optionsOrDefault options)) res.TaskID
        (imagesToDownload res).length := by
    rw [filterMap_failure_length]
    exact List.Perm.length_eq (List.Perm.filter _ hperm)
  have hsum := succeeded_add_failed w (outputDirOf (optionsOrDefault options)) res.TaskID
    (imagesToDownload res).length
  have hlen := List.Perm.length_eq hpaths
  simp only [List.length_map] at hlen
  refine ⟨(order.filter (fetchSucceeds w (outputDirOf (optionsOrDefault options))
        res.TaskID)).map (downloadPath w.Join (outputDirOf (optionsOrDefault options))
        res.TaskID), ?_, hpaths, ?_, ?_, ?_⟩
  · unfold DownloadImages
    simp only [hsucc, Bool.not_true, Bool.false_eq_true, if_false, hdir,
      Nat.ne_of_gt hn, collect_eq, List.nil_append]
    split <;> rfl
  · simp only [List.length_map]
    omega
  · unfold DownloadImages
    simp only [hsucc, Bool.not_true, Bool.false_eq_true, if_false, hdir,
      Nat.ne_of_gt hn, collect_eq, List.nil_append]
    rw [← hfail]
    split
    · rename_i first rest heq
      simp [heq]
    · rename_i heq
      simp [heq]
  · intro hpos
    unfold DownloadImages
    simp only [hsucc, Bool.not_true, Bool.false_eq_true, if_false, hdir,
      Nat.ne_of_gt hn, collect_eq, List.nil_append]
    rw [← hfail] at hpos ⊢
    split
    · rename_i first rest heq
      exact ⟨first, by rw [heq]⟩
    · rename_i heq
      rw [heq] at hpos
      simp at hpos

theorem c6_paths_and_failure_count_witness :
    (DownloadImages worldFirstOnly (some resultTwoURLs) none [1, 0]).result =
      some { resultTwoURLs with ImagePaths := ["output/17-0.png"] } ∧
    (DownloadImages worldFirstOnly (some resultTwoURLs) none [1, 0]).err =
      some (.wrapf "下载过程中发生 1 个错误，第一个错误: " (.errorf "下载图片失败，状态码: 404")) ∧
    ∃ paths,
      (DownloadImages worldFirstOnly (some resultTwoURLs) none [1, 0]).result =
        some { resultTwoURLs with ImagePaths := paths } ∧
      paths.Perm ((succeeded worldFirstOnly (outputDirOf (optionsOrDefault none))
          resultTwoURLs.TaskID (imagesToDownload resultTwoURLs).length).map
        (downloadPath worldFirstOnly.Join (outputDirOf (optionsOrDefault none))
          resultTwoURLs.TaskID)) ∧
      paths.length + failedCount worldFirstOnly (outputDirOf (optionsOrDefault none))
          resultTwoURLs.TaskID (imagesToDownload resultTwoURLs).length =
        (imagesToDownload resultTwoURLs).length ∧
      ((DownloadImages worldFirstOnly (some resultTwoURLs) none [1, 0]).err = none ↔
        failedCount worldFirstOnly (outputDirOf (optionsOrDefault none))
          resultTwoURLs.TaskID (imagesToDownload resultTwoURLs).length = 0) ∧
      (0 < failedCount worldFirstOnly (outputDirOf (optionsOrDefault none))
          resultTwoURLs.TaskID (imagesToDownload resultTwoURLs).length →
        ∃ first, (DownloadImages worldFirstOnly (some resultTwoURLs) none [1, 0]).err =
          some (.wrapf ("下载过程中发生 " ++
            toString (failedCount worldFirstOnly (outputDirOf (optionsOrDefault none))
              resultTwoURLs.TaskID (imagesToDownload resultTwoURLs).length) ++
            " 个错误，第一个错误: ") first)) :=
  ⟨by decide, by decide,
   c6_paths_and_failure_count worldFirstOnly resultTwoURLs none [1, 0]
     (by decide) (by decide) (by decide) (by decide)⟩


/-! ### ProcessTasks -/

theorem runTasks_slots (execs : List (Client × TaskWorld)) (tasks : List Task)
    (hlen : execs.length = tasks.length) (order : List Nat) :
    ∀ results : List (Option TaskResult), results.length = tasks.length →
      (∀ i ∈ order, i < tasks.length ∧ completes execs tasks i = true) →
      ∃ out, runTasks execs tasks order results = .returned out ∧
        out.length = tasks.length ∧
        ∀ j, out[j]? = if j ∈ order then some (slotOf execs tasks j) else results[j]? := by
  induction order with
  | nil =>
    intro results hr _
    exact ⟨results, rfl, hr, fun j => by simp⟩
  | cons idx rest ih =>
    intro results hr hall
    obtain ⟨hidx, hcomp⟩ := hall idx (List.mem_cons_self _ _)
    obtain ⟨t, ht⟩ : ∃ t, tasks[idx]? = some t := ⟨_, List.getElem?_eq_getElem hidx⟩
    obtain ⟨⟨c, w⟩, he⟩ : ∃ e, execs[idx]? = some e :=
      ⟨_, List.getElem?_eq_getElem (show idx < execs.length by omega)⟩
    unfold completes at hcomp
    rw [ht, he] at hcomp
    simp only at hcomp
    unfold runTasks
    rw [ht, he]
    simp only
    cases hp : ProcessTask c w t with
    | panicked m => rw [hp] at hcomp; simp at hcomp
    | returned r =>
      simp only
      have hslot : slotOf execs tasks idx = r.result := by
        unfold slotOf
        rw [ht, he]
        simp only [hp]
      obtain ⟨out, hout, holen, hget⟩ := ih (results.set idx r.result)
        (by rw [List.length_set]; exact hr)
        (fun i hi => hall i (List.mem_cons_of_mem _ hi))
      refine ⟨out, hout, holen, fun j => ?_⟩
      rw [hget j]
      by_cases hj : j ∈ rest
      · simp [hj]
      · by_cases hji : j = idx
        · subst hji
          simp only [hj, if_false, List.mem_cons, true_or, if_true, hslot]
          exact List.getElem?_set_self (by omega)
        · have hne : idx ≠ j := fun h => hji h.symm
          simp only [hj, if_false, List.mem_cons, hji, or_self]
          exact List.getElem?_set_ne hne

/-- C4: for every list of N tasks and every order in which the N executions of
`ProcessTask` complete, `ProcessTasks` returns exactly N slots and slot i holds the
pointer `ProcessTask` returned for `tasks[i]`. -/
theorem c4_slot_i_holds_task_i (execs : List (Client × TaskWorld)) (tasks : List Task)
    (order : List Nat) (hlen : execs.length = tasks.length)
    (hperm : order.Perm (List.range tasks.length))
    (hcomplete : ∀ i, i < tasks.length → completes execs tasks i = true) :
    ProcessTasks execs tasks order =
      .returned ((List.range tasks.length).map (slotOf execs tasks)) := by
  have hmem : ∀ i, i ∈ order ↔ i < tasks.length := fun i => by
    rw [List.Perm.mem_iff hperm, List.mem_range]
  obtain ⟨out, hout, holen, hget⟩ := runTasks_slots execs tasks hlen order
    (List.replicate tasks.length none) (by simp)
    (fun i hi => ⟨(hmem i).1 hi, hcomplete i ((hmem i).1 hi)⟩)
  unfold ProcessTasks
  rw [hout]
  congr 1
  apply List.ext_getElem?
  intro j
  rw [hget j]
  by_cases hj : j < tasks.length
  · simp [(hmem j).2 hj, List.getElem?_range hj]
  · have hj2 : ¬ j ∈ order := fun h => hj ((hmem j).1 h)
    rw [if_neg hj2, List.getElem?_eq_none (by simp; omega),
      List.getElem?_eq_none (by simp; omega)]

theorem c4_slot_i_holds_task_i_witness :
    [(testClient, worldReplying replyOneImage), (testClient, worldCancelledAtGate)].length =
      [testTask, testTask2].length ∧
    ProcessTasks [(testClient, worldReplying replyOneImage), (testClient, worldCancelledAtGate)]
        [testTask, testTask2] [1, 0] =
      .returned ((List.range [testTask, testTask2].length).map
        (slotOf [(testClient, worldReplying replyOneImage), (testClient, worldCancelledAtGate)]
          [testTask, testTask2])) :=
  ⟨by decide,
   c4_slot_i_holds_task_i _ _ [1, 0] (by decide) (by decide) (by decide)⟩


/-! ### The image pattern -/

theorem stripLit_append (p s : List Char) : stripLit p (p ++ s) = some s := by
  induction p with
  | nil => cases s <;> rfl
  | cons c p ih => simp [stripLit, ih]

theorem stripLit_head_ne (p0 : Char) (ps : List Char) (c : Char) (cs : List Char)
    (h : p0 ≠ c) : stripLit (p0 :: ps) (c :: cs) = none := by
  simp [stripLit, h]

theorem matchScheme_http (s : List Char) :
    matchScheme ("http://".toList ++ s) = some ("http://".toList, s) := by
  have h1 : stripLit "http".toList ("http://".toList ++ s) = some ("://".toList ++ s) :=
    stripLit_append "http".toList ("://".toList ++ s)
  have h2 : stripLit "s".toList ("://".toList ++ s) = none :=
    stripLit_head_ne _ _ _ _ (by decide)
  have h3 := stripLit_append "://".toList s
  unfold matchScheme
  rw [h1]
  simp only [h2, Option.bind, h3]

theorem matchScheme_https (s : List Char) :
    matchScheme ("https://".toList ++ s) = some ("https://".toList, s) := by
  have h1 : stripLit "http".toList ("https://".toList ++ s) = some ("s://".toList ++ s) :=
    stripLit_append "http".toList ("s://".toList ++ s)
  have h2 : stripLit "s".toList ("s://".toList ++ s) = some ("://".toList ++ s) :=
    stripLit_append "s".toList ("://".toList ++ s)
  have h3 := stripLit_append "://".toList s
  unfold matchScheme
  rw [h1]
  simp only [h2, Option.bind, h3]


theorem closeParen_toList : ")".toList = [Char.ofNat 41] := by decide

theorem stripLit_close_none (tail : List Char) (h : endOrSpace tail = true) :
    stripLit ")".toList tail = none := by
  rw [closeParen_toList]
  cases tail with
  | nil => rfl
  | cons c cs =>
    apply stripLit_head_ne
    intro hc
    subst hc
    simp [endOrSpace, isSpace] at h

theorem takeWhile_class (rest tail : List Char)
    (hrest : rest.all (fun c => !isSpace c) = true) (htail : endOrSpace tail = true) :
    (rest ++ (")".toList ++ tail)).takeWhile (fun c => !isSpace c) = rest ++ ")".toList := by
  induction rest with
  | nil =>
    rw [closeParen_toList]
    cases tail with
    | nil => decide
    | cons c cs =>
      simp only [endOrSpace] at htail
      show List.takeWhile _ (Char.ofNat 41 :: c :: cs) = [Char.ofNat 41]
      rw [List.takeWhile_cons_of_pos (by decide),
        List.takeWhile_cons_of_neg (by simp [htail])]
  | cons c cs ih =>
    simp only [List.all_cons, Bool.and_eq_true] at hrest
    have hc : (fun c => !isSpace c) c = true := hrest.1
    rw [List.cons_append, List.takeWhile_cons_of_pos (p := fun c => !isSpace c) (a := c) hc,
      ih hrest.2]
    rfl

theorem matchClass_link (rest tail : List Char) (hne : rest ≠ [])
    (hrest : rest.all (fun c => !isSpace c) = true) (htail : endOrSpace tail = true) :
    matchClass (rest ++ (")".toList ++ tail)) = some (rest, tail) := by
  unfold matchClass
  rw [takeWhile_class rest tail hrest htail]
  have hlen : (rest ++ ")".toList).length = rest.length + 1 := by
    rw [closeParen_toList]; simp
  rw [hlen]
  obtain ⟨m, hm⟩ : ∃ m, rest.length = m + 1 := by
    cases rest with
    | nil => exact absurd rfl hne
    | cons c cs => exact ⟨cs.length, rfl⟩
  have hdrop1 : (rest ++ (")".toList ++ tail)).drop (rest.length + 1) = tail := by
    have h := List.drop_left (rest ++ ")".toList) tail
    rw [hlen, List.append_assoc] at h
    exact h
  have hdrop2 : (rest ++ (")".toList ++ tail)).drop (m + 1) = ")".toList ++ tail := by
    rw [← hm]; exact List.drop_left rest _
  have htake : (rest ++ (")".toList ++ tail)).take (m + 1) = rest := by
    rw [← hm]; exact List.take_left rest _
  unfold backtrackClass
  rw [hdrop1, stripLit_close_none tail htail]
  simp only
  rw [hm]
  unfold backtrackClass
  rw [hdrop2, stripLit_append, htake]


theorem closeBracket_toList : "](".toList = [Char.ofNat 93, Char.ofNat 40] := by decide

theorem bang_toList : "![".toList = [Char.ofNat 33, Char.ofNat 91] := by decide

theorem matchTail_link (l : ImageLink) (tail : List Char) (hwf : l.wellFormed = true)
    (htail : endOrSpace tail = true) :
    matchTail ("](".toList ++ (l.url ++ (")".toList ++ tail))) = some (l.url, tail) := by
  simp only [ImageLink.wellFormed, Bool.and_eq_true, Bool.not_eq_true', List.isEmpty_eq_false] at hwf
  obtain ⟨⟨_, hne⟩, hrest⟩ := hwf
  have hcls := matchClass_link l.rest tail hne hrest htail
  unfold matchTail
  rw [stripLit_append]
  simp only [ImageLink.url]
  cases l.secure with
  | true =>
    simp only [if_true, List.append_assoc]
    rw [matchScheme_https]
    simp only [hcls]
  | false =>
    simp only [Bool.false_eq_true, if_false, List.append_assoc]
    rw [matchScheme_http]
    simp only [hcls]

theorem matchLazy_of_matchTail (s : List Char) (r : List Char × List Char)
    (h : matchTail s = some r) : matchLazy s = some r := by
  cases s with
  | nil => unfold matchLazy; exact h
  | cons c cs => unfold matchLazy; rw [h]

theorem matchLazy_alt (alt s : List Char) (r : List Char × List Char)
    (halt : alt.all (fun c => c.toNat != 93 && isDot c) = true)
    (h : matchTail s = some r) : matchLazy (alt ++ s) = some r := by
  induction alt with
  | nil => exact matchLazy_of_matchTail s r h
  | cons c cs ih =>
    simp only [List.all_cons, Bool.and_eq_true] at halt
    obtain ⟨⟨hc, hdot⟩, hcs⟩ := halt
    have hne : Char.ofNat 93 ≠ c := by
      intro hEq
      subst hEq
      exact absurd hc (by decide)
    have hnone : matchTail (c :: (cs ++ s)) = none := by
      unfold matchTail
      rw [closeBracket_toList, stripLit_head_ne _ _ _ _ hne]
    rw [List.cons_append]
    unfold matchLazy
    rw [hnone]
    simp only [hdot, if_true]
    exact ih (by simpa using hcs)

/-- At the start of a well-formed link that is followed by whitespace or by the end of
the text, the pattern matches exactly the link and captures its URL. -/
theorem matchHere_link (l : ImageLink) (tail : List Char) (hwf : l.wellFormed = true)
    (htail : endOrSpace tail = true) :
    matchHere (l.text ++ tail) = some (l.url, tail) := by
  have halt : l.alt.all (fun c => c.toNat != 93 && isDot c) = true := by
    simp only [ImageLink.wellFormed, Bool.and_eq_true] at hwf
    exact hwf.1.1
  have h := matchLazy_alt l.alt _ _ halt (matchTail_link l tail hwf htail)
  unfold matchHere
  simp only [ImageLink.text, List.append_assoc]
  rw [stripLit_append]
  simpa [List.append_assoc] using h

theorem matchHere_not_bang (c : Char) (cs : List Char) (h : (c.toNat != 33) = true) :
    matchHere (c :: cs) = none := by
  have hne : Char.ofNat 33 ≠ c := by
    intro hEq
    subst hEq
    exact absurd h (by decide)
  unfold matchHere
  rw [bang_toList, stripLit_head_ne _ _ _ _ hne]


theorem findAllFrom_succ_cons (k : Nat) (c : Char) (cs : List Char) :
    findAllFrom (k + 1) (c :: cs) = findAllFrom k cs := rfl

theorem findAllFrom_zero_none (c : Char) (cs : List Char) (h : matchHere (c :: cs) = none) :
    findAllFrom 0 (c :: cs) = findAllFrom 0 cs := by
  rw [findAllFrom, h]

theorem findAllFrom_zero_some (c : Char) (cs g1 rest : List Char)
    (h : matchHere (c :: cs) = some (g1, rest)) :
    findAllFrom 0 (c :: cs) =
      [String.mk ((c :: cs).take ((c :: cs).length - rest.length)), String.mk g1] ::
        findAllFrom ((c :: cs).length - rest.length - 1) cs := by
  rw [findAllFrom, h]

theorem findAllFrom_plain (pre s : List Char) (hpre : plain pre = true) :
    findAllFrom 0 (pre ++ s) = findAllFrom 0 s := by
  induction pre with
  | nil => rfl
  | cons c cs ih =>
    simp only [plain, List.all_cons, Bool.and_eq_true] at hpre
    rw [List.cons_append, findAllFrom_zero_none c _ (matchHere_not_bang c _ hpre.1)]
    exact ih (by simpa [plain] using hpre.2)

theorem findAllFrom_skip (l s : List Char) :
    findAllFrom l.length (l ++ s) = findAllFrom 0 s := by
  induction l with
  | nil => rfl
  | cons c cs ih =>
    rw [List.cons_append, List.length_cons, findAllFrom_succ_cons]
    exact ih

theorem findAllFrom_link (l : ImageLink) (tail : List Char) (hwf : l.wellFormed = true)
    (htail : endOrSpace tail = true) :
    findAllFrom 0 (l.text ++ tail) =
      [String.mk l.text, String.mk l.url] :: findAllFrom 0 tail := by
  obtain ⟨t0, ht0⟩ : ∃ t0, l.text = Char.ofNat 33 :: t0 :=
    ⟨_, by simp only [ImageLink.text, bang_toList]; rfl⟩
  have hm := matchHere_link l tail hwf htail
  rw [ht0, List.cons_append] at hm ⊢
  have hlen : (Char.ofNat 33 :: (t0 ++ tail)).length - tail.length = t0.length + 1 := by
    simp only [List.length_cons, List.length_append]; omega
  rw [findAllFrom_zero_some _ _ _ _ hm, hlen, Nat.add_sub_cancel, findAllFrom_skip t0 tail]
  have htake : (Char.ofNat 33 :: (t0 ++ tail)).take (t0.length + 1) = Char.ofNat 33 :: t0 := by
    simp
  rw [htake]

theorem findAllFrom_linksText (items : List (ImageLink × List Char))
    (hsep : separated items = true) :
    findAllFrom 0 (linksText items) =
      items.map (fun p => [String.mk p.1.text, String.mk p.1.url]) := by
  induction items with
  | nil => rfl
  | cons p items ih =>
    obtain ⟨l, sep⟩ := p
    simp only [separated, Bool.and_eq_true] at hsep
    obtain ⟨⟨⟨hwf, hplain⟩, hend⟩, hrest⟩ := hsep
    simp only [linksText, List.map_cons]
    rw [findAllFrom_link l _ hwf hend, findAllFrom_plain sep _ hplain, ih hrest]

theorem appendMatches_pairs {α : Type} (items : List α) (a b : α → String) :
    ∀ acc : List String,
      appendMatches acc (items.map (fun p => [a p, b p])) = acc ++ items.map b := by
  induction items with
  | nil => intro acc; simp [appendMatches]
  | cons p items ih =>
    intro acc
    simp only [List.map_cons, appendMatches, List.length_cons, List.length_nil]
    simp [ih]

/-- C5: on the text `![a](http://x)![b](http://y)`, two image links written one right
after the other whose parenthesized URLs are `http://x` and `http://y`, the extraction
used by `ProcessTask` and by the fallback of `DownloadImages` yields one string,
`http://x)![b](http://y`, instead of the two URLs. -/
theorem c5_adjacent_links_yield_one_url :
    ("![a](http://x)![b](http://y)".toList =
      (ImageLink.mk "a".toList false "x".toList).text ++
        (ImageLink.mk "b".toList false "y".toList).text) ∧
    [String.mk (ImageLink.mk "a".toList false "x".toList).url,
     String.mk (ImageLink.mk "b".toList false "y".toList).url] = ["http://x", "http://y"] ∧
    appendMatches [] (FindAllStringSubmatch "![a](http://x)![b](http://y)") =
      ["http://x)![b](http://y"] ∧
    appendMatches resultNoURL.ImageURLs
        (FindAllStringSubmatch "![a](http://x)![b](http://y)") ≠
      ["http://x", "http://y"] := by
  decide

/-- On a text made of k image links `![alt](http://...)` or `![alt](https://...)` (alt
without `]` or line feed, URL without whitespace) in which every link is followed by
whitespace or by the end of the text and the text around the links has no `!`, the
extraction yields exactly the k parenthesized URLs, in order of appearance, duplicates
kept. -/
theorem separated_links_extracted (pre : List Char) (items : List (ImageLink × List Char))
    (hpre : plain pre = true) (hsep : separated items = true) :
    appendMatches [] (FindAllStringSubmatch (String.mk (pre ++ linksText items))) =
      items.map (fun p => String.mk p.1.url) := by
  unfold FindAllStringSubmatch
  show appendMatches [] (findAllFrom 0 (pre ++ linksText items)) = _
  rw [findAllFrom_plain pre _ hpre, findAllFrom_linksText items hsep, appendMatches_pairs]
  rfl

theorem separated_links_extracted_example :
    String.mk ("see ".toList ++ linksText
      [(⟨"x".toList, true, "host/1.png".toList⟩, " and\n".toList),
       (⟨"".toList, false, "h/(2).png".toList⟩, "\t".toList),
       (⟨"x".toList, true, "host/1.png".toList⟩, [])]) =
      "see ![x](https://host/1.png) and\n![](http://h/(2).png)\t![x](https://host/1.png)" ∧
    appendMatches [] (FindAllStringSubmatch (String.mk ("see ".toList ++ linksText
      [(⟨"x".toList, true, "host/1.png".toList⟩, " and\n".toList),
       (⟨"".toList, false, "h/(2).png".toList⟩, "\t".toList),
       (⟨"x".toList, true, "host/1.png".toList⟩, [])]))) =
      ["https://host/1.png", "http://h/(2).png", "https://host/1.png"] :=
  ⟨by decide,
   separated_links_extracted "see ".toList _ (by decide) (by decide)⟩


/-! ### ProcessTasksAsync when every goroutine reaches its send -/

theorem runTasksAsync_sent (execs : List (Client × TaskWorld)) (tasks : List Task)
    (order : List Nat) :
    ∀ sent : List (Option TaskResult),
      (∀ i ∈ order, (sentOf execs tasks i).isSome = true) →
      runTasksAsync execs tasks order sent =
        .returned (sent ++ order.filterMap (sentOf execs tasks)) ∧
      (order.filterMap (sentOf execs tasks)).length = order.length := by
  induction order with
  | nil => intro sent _; simp [runTasksAsync]
  | cons idx rest ih =>
    intro sent hall
    have hidx := hall idx (List.mem_cons_self _ _)
    have hrest := fun i hi => hall i (List.mem_cons_of_mem idx hi)
    unfold sentOf at hidx
    rw [runTasksAsync, List.filterMap_cons]
    unfold sentOf
    cases ht : tasks[idx]? with
    | none => rw [ht] at hidx; simp at hidx
    | some t =>
      cases he : execs[idx]? with
      | none => rw [ht, he] at hidx; simp at hidx
      | some e =>
        obtain ⟨c, w⟩ := e
        rw [ht, he] at hidx
        simp only at hidx ⊢
        cases hp : ProcessTask c w t with
        | panicked m => rw [hp] at hidx; simp at hidx
        | returned r =>
          rw [hp] at hidx
          simp only at hidx ⊢
          cases hs : asyncSend r with
          | panicked m => rw [hs] at hidx; simp at hidx
          | returned v =>
            simp only
            obtain ⟨h1, h2⟩ := ih (sent ++ [v]) hrest
            exact ⟨by rw [h1, List.append_assoc]; rfl, by
              simp only [List.length_cons]
              exact congrArg (· + 1) h2⟩

/-- When every goroutine of `ProcessTasksAsync` reaches its send (no execution is
cancelled at the gate, none panics), the channel delivers exactly one value per task:
the values sent, in completion order. -/
theorem processTasksAsync_delivers_each_once (execs : List (Client × TaskWorld))
    (tasks : List Task) (order : List Nat)
    (hperm : order.Perm (List.range tasks.length))
    (hsend : ∀ i, i < tasks.length → (sentOf execs tasks i).isSome = true) :
    ∃ out, ProcessTasksAsync execs tasks order = .returned out ∧
      out.length = tasks.length ∧
      out.Perm ((List.range tasks.length).filterMap (sentOf execs tasks)) := by
  have hmem : ∀ i ∈ order, (sentOf execs tasks i).isSome = true := fun i hi =>
    hsend i (List.mem_range.1 ((List.Perm.mem_iff hperm).1 hi))
  obtain ⟨h1, h2⟩ := runTasksAsync_sent execs tasks order [] hmem
  refine ⟨order.filterMap (sentOf execs tasks), by simpa [ProcessTasksAsync] using h1, ?_,
    List.Perm.filterMap _ hperm⟩
  rw [h2, List.Perm.length_eq hperm, List.length_range]


end Gpt4oImage
